import Mathlib

/-!
Shallow embedding of the `cons-util` console logging engine
(`src/cons.rs`, `src/lib.rs`, `src/file.rs`).

Modelling conventions:
* Rust `String` is Lean `String`; `Vec<T>` is `List T`.
* A `Box<dyn ConsoleLogTranslator>` trait object is embedded as a function
  `String → TranslationResult` (its `translate` method).
* Terminal output (`println!`) is modelled as the list of printed lines,
  returned alongside the lines pushed into the `log_lines` vector.
* `usize as i32` casts and `i32` addition follow two's-complement wrapping
  (release-mode semantics), made explicit through `asI32`.
* Filesystem writes (`FileMan::write_all`) are modelled by an explicit
  effect parameter `fsWrite : String → String → Except FileManLog Unit`,
  and the trace of attempted writes `(path, content)` is returned.
* `Local::now()` is modelled by an explicit `now : String` parameter.
-/

/-- Severity kind of a log entry (`ConsoleLogKind` in `src/cons.rs`). -/
inductive ConsoleLogKind where
  | Error
  | Warning
  | Note
deriving DecidableEq

/-- Result of resolving a translatable node (`TranslationResult`). -/
inductive TranslationResult where
  | Success (s : String)
  | UnknownLanguage
deriving DecidableEq

/-- Color number for each severity (`ConsoleLogKind::get_log_color_num`). -/
def ConsoleLogKind.get_log_color_num : ConsoleLogKind → Nat
  | ConsoleLogKind.Error => 31
  | ConsoleLogKind.Warning => 33
  | ConsoleLogKind.Note => 34

/-- Short label for each severity (`ConsoleLogKind::get_log_kind_name`). -/
def ConsoleLogKind.get_log_kind_name : ConsoleLogKind → String
  | ConsoleLogKind.Error => "err"
  | ConsoleLogKind.Warning => "warn"
  | ConsoleLogKind.Note => "note"

/-- A log entry (`ConsoleLog`): a severity kind, a title node and description
nodes; trait objects `Box<dyn ConsoleLogTranslator>` are embedded as
functions `String → TranslationResult`. -/
structure ConsoleLog where
  kind : ConsoleLogKind
  title : String → TranslationResult
  descs : List (String → TranslationResult)

/-- Content kind of a log sink (`LogFileKind`). -/
inductive LogFileKind where
  | TextLines (lines : List String)
  | ConsoleLogs
deriving DecidableEq

/-- A log sink (`LogFile`): content kind and destination path. -/
structure LogFile where
  kind : LogFileKind
  output_path : String
deriving DecidableEq

/-- Log-count limit policy (`ConsoleLogLimit`). -/
inductive ConsoleLogLimit where
  | NoLimit
  | Limited (limit_count : Nat)
deriving DecidableEq

/-- Display form of a limit (`impl Display for ConsoleLogLimit`). -/
def ConsoleLogLimit.display : ConsoleLogLimit → String
  | ConsoleLogLimit.NoLimit => "[no limit]"
  | ConsoleLogLimit.Limited limit_count => toString limit_count

/-- Recognized internal languages (`InternalLanguage` in `src/lib.rs`). -/
inductive InternalLanguage where
  | English
  | Japanese
deriving DecidableEq

/-- Language-code parsing (`InternalLanguage::from`). -/
def InternalLanguage.fromStr : String → Option InternalLanguage
  | "en" => some InternalLanguage.English
  | "ja" => some InternalLanguage.Japanese
  | _ => none

/-- The internal translator variants (`InternalTranslator` in `src/lib.rs`). -/
inductive InternalTranslator where
  | ExpectedFilePathNotDirectoryPath
  | FailedToGetCurrentDirectory
  | FailedToOpenFile
  | FailedToOpenFileOrDirectory
  | FailedToReadFile
  | FailedToWriteFile
  | LogLimitExceeded (log_limit : ConsoleLogLimit)
  | MetadataIsNotAvailableOnThisPlatform
  | PathDoesNotExist
  | PathDescription (path : String)

/-- Per-variant, per-language resolution
(`impl ConsoleLogTranslator for InternalTranslator`). -/
def InternalTranslator.translate (t : InternalTranslator) (lang_name : String) :
    TranslationResult :=
  match InternalLanguage.fromStr lang_name with
  | none => TranslationResult.UnknownLanguage
  | some lang =>
    TranslationResult.Success (match t, lang with
      | InternalTranslator.ExpectedFilePathNotDirectoryPath, InternalLanguage.English =>
        "expected file path not directory path"
      | InternalTranslator.ExpectedFilePathNotDirectoryPath, InternalLanguage.Japanese =>
        "ディレクトリパスでなくファイルパスが必要です"
      | InternalTranslator.FailedToGetCurrentDirectory, InternalLanguage.English =>
        "failed to get current directory"
      | InternalTranslator.FailedToGetCurrentDirectory, InternalLanguage.Japanese =>
        "カレントディレクトリの取得に失敗しました"
      | InternalTranslator.FailedToOpenFile, InternalLanguage.English =>
        "failed to open file"
      | InternalTranslator.FailedToOpenFile, InternalLanguage.Japanese =>
        "ファイルのオープンに失敗しました"
      | InternalTranslator.FailedToOpenFileOrDirectory, InternalLanguage.English =>
        "failed to open file or directory"
      | InternalTranslator.FailedToOpenFileOrDirectory, InternalLanguage.Japanese =>
        "ファイルもしくはディレクトリのオープンに失敗しました"
      | InternalTranslator.FailedToReadFile, InternalLanguage.English =>
        "failed to read file"
      | InternalTranslator.FailedToReadFile, InternalLanguage.Japanese =>
        "ファイルの読み込みに失敗しました"
      | InternalTranslator.FailedToWriteFile, InternalLanguage.English =>
        "failed to write file"
      | InternalTranslator.FailedToWriteFile, InternalLanguage.Japanese =>
        "ファイルの書き込みに失敗しました"
      | InternalTranslator.LogLimitExceeded log_limit, InternalLanguage.English =>
        "log limit " ++ log_limit.display ++ " exceeded"
      | InternalTranslator.LogLimitExceeded log_limit, InternalLanguage.Japanese =>
        "ログ制限 " ++ log_limit.display ++ " を超過しました"
      | InternalTranslator.MetadataIsNotAvailableOnThisPlatform, InternalLanguage.English =>
        "metadata is not available on this platform"
      | InternalTranslator.MetadataIsNotAvailableOnThisPlatform, InternalLanguage.Japanese =>
        "このプラットフォームでは属性が利用できません"
      | InternalTranslator.PathDoesNotExist, InternalLanguage.English =>
        "path does not exist"
      | InternalTranslator.PathDoesNotExist, InternalLanguage.Japanese =>
        "パスが存在しません"
      | InternalTranslator.PathDescription path, InternalLanguage.English =>
        "path:\t" ++ path
      | InternalTranslator.PathDescription path, InternalLanguage.Japanese =>
        "パス:\t" ++ path)

/-- Domain failure values of the file utility (`FileManLog` in `src/file.rs`). -/
inductive FileManLog where
  | ExpectedFilePathNotDirectoryPath (path : String)
  | FailedToGetCurrentDirectory
  | FailedToOpenFile (path : String)
  | FailedToOpenFileOrDirectory (path : String)
  | FailedToReadFile (path : String)
  | FailedToWriteFile (path : String)
  | LogLimitExceeded (log_limit : ConsoleLogLimit)
  | MetadataIsNotAvailableOnThisPlatform (path : String)
  | PathDoesNotExist (path : String)
deriving DecidableEq

/-- Conversion of a file-utility failure into a log entry
(`impl ConsoleLogger for FileManLog`, via the `log!` macro). -/
def FileManLog.get_log : FileManLog → ConsoleLog
  | FileManLog.ExpectedFilePathNotDirectoryPath path =>
    ⟨ConsoleLogKind.Error, InternalTranslator.ExpectedFilePathNotDirectoryPath.translate,
      [(InternalTranslator.PathDescription path).translate]⟩
  | FileManLog.FailedToGetCurrentDirectory =>
    ⟨ConsoleLogKind.Error, InternalTranslator.FailedToGetCurrentDirectory.translate, []⟩
  | FileManLog.FailedToOpenFile path =>
    ⟨ConsoleLogKind.Error, InternalTranslator.FailedToOpenFile.translate,
      [(InternalTranslator.PathDescription path).translate]⟩
  | FileManLog.FailedToOpenFileOrDirectory path =>
    ⟨ConsoleLogKind.Error, InternalTranslator.FailedToOpenFileOrDirectory.translate,
      [(InternalTranslator.PathDescription path).translate]⟩
  | FileManLog.FailedToReadFile path =>
    ⟨ConsoleLogKind.Error, InternalTranslator.FailedToReadFile.translate,
      [(InternalTranslator.PathDescription path).translate]⟩
  | FileManLog.FailedToWriteFile path =>
    ⟨ConsoleLogKind.Error, InternalTranslator.FailedToWriteFile.translate,
      [(InternalTranslator.PathDescription path).translate]⟩
  | FileManLog.LogLimitExceeded log_limit =>
    ⟨ConsoleLogKind.Error, (InternalTranslator.LogLimitExceeded log_limit).translate, []⟩
  | FileManLog.MetadataIsNotAvailableOnThisPlatform path =>
    ⟨ConsoleLogKind.Error, InternalTranslator.MetadataIsNotAvailableOnThisPlatform.translate,
      [(InternalTranslator.PathDescription path).translate]⟩
  | FileManLog.PathDoesNotExist path =>
    ⟨ConsoleLogKind.Error, InternalTranslator.PathDoesNotExist.translate,
      [(InternalTranslator.PathDescription path).translate]⟩

/-- Console state (`Console` in `src/cons.rs`). -/
structure Console where
  lang : String
  log_list : List ConsoleLog
  log_limit : ConsoleLogLimit
  ignore_logs : Bool

/-- Constructor (`Console::new`). -/
def Console.new (lang : String) (log_limit : ConsoleLogLimit) : Console :=
  { lang := lang, log_list := [], log_limit := log_limit, ignore_logs := false }

/-- Append operation (`Console::append_log`). -/
def Console.append_log (c : Console) (log : ConsoleLog) : Console :=
  if !c.ignore_logs then { c with log_list := c.log_list ++ [log] } else c

/-- Clear operation (`Console::clear`). -/
def Console.clear (c : Console) : Console :=
  { c with log_list := [] }

/-- Pop operation (`Console::pop_log`). -/
def Console.pop_log (c : Console) : Console :=
  if c.log_list.length > 0 then { c with log_list := c.log_list.dropLast } else c

/-- Title-line formatting (`Console::format_title`): the optional color
wraps the bracketed label with ANSI escapes. -/
def Console.format_title (color : Option Nat) (kind : String) (title : String) : String :=
  let colors := match color with
    | some v => ("\x1b[" ++ toString v ++ "m", "\x1b[m")
    | none => ("", "")
  colors.1 ++ "[" ++ kind ++ "]" ++ colors.2 ++ " " ++ title

/-- Fixed unknown-language notice (`Console::format_unknown_language_log`). -/
def Console.format_unknown_language_log : String :=
  Console.format_title (some ConsoleLogKind.Error.get_log_color_num)
    ConsoleLogKind.Error.get_log_kind_name "unknown language"

/-- Fixed sink-write-failure notice
(`Console::format_log_file_writing_failure_log`). -/
def Console.format_log_file_writing_failure_log : String :=
  Console.format_title (some ConsoleLogKind.Error.get_log_color_num)
    ConsoleLogKind.Error.get_log_kind_name "log file writing failure"

/-- Two's-complement wrap of an integer into the `i32` range, modelling both
the `usize as i32` cast and release-mode `i32` addition overflow. -/
def asI32 (x : Int) : Int :=
  ((x + 2 ^ 31) % 2 ^ 32) - 2 ^ 31

/-- Description-rendering loop inside `Console::print` (`src/cons.rs` lines
227-242): returns (lines printed to the terminal, lines pushed into
`log_lines`).  On an unknown language the loop prints the fixed notice plus
a blank line to the terminal and returns early, so nothing further is
pushed into `log_lines`; otherwise the final blank line is pushed to both. -/
def Console.printDescs (lang : String) :
    List (String → TranslationResult) → List String × List String
  | [] => ([""], [""])
  | d :: rest =>
    match d lang with
    | TranslationResult.UnknownLanguage =>
      ([Console.format_unknown_language_log, ""], [])
    | TranslationResult.Success v =>
      let p := Console.printDescs lang rest
      (v :: p.1, v :: p.2)

/-- Entry rendering (`Console::print`): returns (terminal lines,
lines pushed into the `log_lines` argument). -/
def Console.print (c : Console) (log : ConsoleLog) : List String × List String :=
  let title_color := log.kind.get_log_color_num
  let kind_name := log.kind.get_log_kind_name
  match log.title c.lang with
  | TranslationResult.UnknownLanguage =>
    ([Console.format_unknown_language_log, ""], [])
  | TranslationResult.Success title =>
    let p := Console.printDescs c.lang log.descs
    (Console.format_title (some title_color) kind_name title :: p.1,
     Console.format_title none kind_name title :: p.2)

/-- The synthetic truncation entry built at `src/cons.rs` line 202:
`log!(Note, InternalTranslator::LogLimitExceeded { log_limit })`. -/
def logLimitNote (log_limit : ConsoleLogLimit) : ConsoleLog :=
  ⟨ConsoleLogKind.Note, (InternalTranslator.LogLimitExceeded log_limit).translate, []⟩

/-- Render loop of `Console::print_all` over the remaining entries, carrying
the `i32` counter `log_count`.  When the limit is hit, the truncation entry
is printed with a fresh vector (`&mut Vec::new()`), so its terminal lines
appear but nothing is pushed into the caller-visible `log_lines`. -/
def Console.printAllFrom (c : Console) (limit_num : Int) :
    List ConsoleLog → Int → List String × List String
  | [], _ => ([], [])
  | each_log :: rest, log_count =>
    if limit_num ≠ -1 ∧ asI32 (log_count + 1) > limit_num then
      ((c.print (logLimitNote c.log_limit)).1, [])
    else
      let p := c.print each_log
      let q := c.printAllFrom limit_num rest (asI32 (log_count + 1))
      (p.1 ++ q.1, p.2 ++ q.2)

/-- Render pass (`Console::print_all`): returns (terminal lines, lines
pushed into the caller's `log_lines` vector). -/
def Console.print_all (c : Console) : List String × List String :=
  let limit_num : Int :=
    match c.log_limit with
    | ConsoleLogLimit.NoLimit => -1
    | ConsoleLogLimit.Limited v => asI32 v
  c.printAllFrom limit_num c.log_list 0

/-- Line selection for one sink (the `let lines = match ...` inside
`Console::write_all`). -/
def LogFile.selectLines (f : LogFile) (cons_log_lines : List String) : List String :=
  match f.kind with
  | LogFileKind.TextLines lines => lines
  | LogFileKind.ConsoleLogs => cons_log_lines

/-- The fixed header block built inside `Console::write_all`, with the
`Local::now()` timestamp supplied as `now`. -/
def logFileHeader (now : String) : String :=
  String.intercalate "\n"
    ["--- Log File ---", "", " * created at " ++ now, " * generated by cons-util"]

/-- Content written for one sink inside `Console::write_all`. -/
def sinkContent (now : String) (cons_log_lines : List String) (f : LogFile) : String :=
  logFileHeader now ++ "\n\n" ++ String.intercalate "\n" (f.selectLines cons_log_lines)

/-- Sink-dispatch loop (`Console::write_all`): returns the trace of
attempted `FileMan::write_all` calls `(path, content)` and the propagated
result.  The `?` operator stops the loop at the first failing write. -/
def Console.write_all (c : Console)
    (fsWrite : String → String → Except FileManLog Unit) (now : String)
    (log_files : List LogFile) (cons_log_lines : List String) :
    List (String × String) × Except FileManLog Unit :=
  match log_files with
  | [] => ([], Except.ok ())
  | each_file_log :: rest =>
    let output_content := sinkContent now cons_log_lines each_file_log
    match fsWrite each_file_log.output_path output_content with
    | Except.error e =>
      ([(each_file_log.output_path, output_content)], Except.error e)
    | Except.ok _ =>
      let p := c.write_all fsWrite now rest cons_log_lines
      ((each_file_log.output_path, output_content) :: p.1, p.2)

/-- Output operation (`Console::output`): renders once, dispatches sinks,
and on a failed dispatch prints the single fixed failure notice; it has no
failure return path.  Returns (terminal lines, attempted writes). -/
def Console.output (c : Console)
    (fsWrite : String → String → Except FileManLog Unit) (now : String)
    (log_files : List LogFile) : List String × List (String × String) :=
  let rendered := c.print_all
  let written := c.write_all fsWrite now log_files rendered.2
  match written.2 with
  | Except.ok _ => (rendered.1, written.1)
  | Except.error _ =>
    (rendered.1 ++ [Console.format_log_file_writing_failure_log], written.1)

/-- Result consumption (`ConsoleResultConsumption::consume` in `src/lib.rs`):
the `&mut Console` receiver is modelled by returning the updated console. -/
def consume {T E : Type} (get_log : E → ConsoleLog) (r : Except E T) (cons : Console) :
    Console × Except Unit T :=
  match r with
  | Except.ok v => (cons, Except.ok v)
  | Except.error e => (cons.append_log (get_log e), Except.error ())

/-- The public operations of `Console` as state transitions.  `append_log`,
`clear` and `pop_log` take `&mut self` in the source and so transform the
console; `output` takes `&self` (a shared reference) and can only read it,
so its transition keeps the console fixed and produces terminal lines. -/
inductive ConsoleOp where
  | append_op (log : ConsoleLog)
  | clear_op
  | pop_op
  | output_op (fsWrite : String → String → Except FileManLog Unit)
      (now : String) (files : List LogFile)

/-- Transition function for `ConsoleOp`: resulting console state and the
terminal lines printed by the operation. -/
def ConsoleOp.apply (op : ConsoleOp) (c : Console) : Console × List String :=
  match op with
  | ConsoleOp.append_op log => (c.append_log log, [])
  | ConsoleOp.clear_op => (c.clear, [])
  | ConsoleOp.pop_op => (c.pop_log, [])
  | ConsoleOp.output_op fsWrite now files => (c, (c.output fsWrite now files).1)

/-- Text carried by a successful translation (empty for an unknown
language); used to state the shape of rendered entry blocks. -/
def translationText : TranslationResult → String
  | TranslationResult.Success s => s
  | TranslationResult.UnknownLanguage => ""

/-- A log entry all of whose nodes resolve successfully under `lang`. -/
def ConsoleLog.resolves (lang : String) (log : ConsoleLog) : Prop :=
  (∃ s, log.title lang = TranslationResult.Success s) ∧
  ∀ d ∈ log.descs, ∃ s, d lang = TranslationResult.Success s

/-- The colored terminal block `Console::print` produces for an entry whose
nodes resolve: colored title line, description lines, trailing blank line. -/
def entryBlockTerm (lang : String) (log : ConsoleLog) : List String :=
  match log.title lang with
  | TranslationResult.Success t =>
    Console.format_title (some log.kind.get_log_color_num) log.kind.get_log_kind_name t
      :: (log.descs.map (fun d => translationText (d lang)) ++ [""])
  | TranslationResult.UnknownLanguage => []

/-- The colorless block `Console::print` pushes into `log_lines` for an
entry whose nodes resolve: plain title line, descriptions, blank line. -/
def entryBlockCons (lang : String) (log : ConsoleLog) : List String :=
  match log.title lang with
  | TranslationResult.Success t =>
    Console.format_title none log.kind.get_log_kind_name t
      :: (log.descs.map (fun d => translationText (d lang)) ++ [""])
  | TranslationResult.UnknownLanguage => []

theorem asI32_eq_self {x : Int} (h1 : -2 ^ 31 ≤ x) (h2 : x < 2 ^ 31) : asI32 x = x := by
  unfold asI32
  have h3 : 0 ≤ x + 2 ^ 31 := by omega
  have h4 : x + 2 ^ 31 < 2 ^ 32 := by omega
  rw [Int.emod_eq_of_lt h3 h4]
  omega

theorem asI32_lt (x : Int) : asI32 x < 2 ^ 31 := by
  unfold asI32
  have h := Int.emod_lt_of_pos (x + 2 ^ 31) (show (0 : Int) < 2 ^ 32 by norm_num)
  omega

theorem printDescs_resolves (lang : String)
    (descs : List (String → TranslationResult))
    (h : ∀ d ∈ descs, ∃ s, d lang = TranslationResult.Success s) :
    Console.printDescs lang descs =
      (descs.map (fun d => translationText (d lang)) ++ [""],
       descs.map (fun d => translationText (d lang)) ++ [""]) := by
  induction descs with
  | nil => simp [Console.printDescs]
  | cons d rest ih =>
    obtain ⟨s, hs⟩ := h d (by simp)
    have hrest : ∀ d' ∈ rest, ∃ s, d' lang = TranslationResult.Success s :=
      fun d' hd' => h d' (by simp [hd'])
    simp [Console.printDescs, hs, ih hrest, translationText]

theorem print_resolves (c : Console) (log : ConsoleLog)
    (h : log.resolves c.lang) :
    c.print log = (entryBlockTerm c.lang log, entryBlockCons c.lang log) := by
  obtain ⟨⟨t, ht⟩, hd⟩ := h
  simp [Console.print, entryBlockTerm, entryBlockCons, ht,
    printDescs_resolves c.lang log.descs hd]

theorem printAllFrom_noLimit (c : Console) (logs : List ConsoleLog) :
    ∀ count : Int, c.printAllFrom (-1) logs count =
      (logs.flatMap (fun l => (c.print l).1), logs.flatMap (fun l => (c.print l).2)) := by
  induction logs with
  | nil => intro count; simp [Console.printAllFrom]
  | cons x rest ih => intro count; simp [Console.printAllFrom, ih]

theorem flatMap_eq_of_eq_on {α β : Type} {l : List α} {f g : α → List β}
    (h : ∀ a ∈ l, f a = g a) : l.flatMap f = l.flatMap g := by
  induction l with
  | nil => rfl
  | cons x xs ih =>
    simp only [List.flatMap_cons, h x (by simp),
      ih (fun a ha => h a (by simp [ha]))]

theorem printAllFrom_trunc (c : Console) (k : Nat) (hk : k + 1 < 2 ^ 31) :
    ∀ (logs : List ConsoleLog) (count : Nat), count ≤ k → k - count < logs.length →
      c.printAllFrom (k : Int) logs (count : Int) =
        ((logs.take (k - count)).flatMap (fun l => (c.print l).1) ++
          (c.print (logLimitNote c.log_limit)).1,
         (logs.take (k - count)).flatMap (fun l => (c.print l).2)) := by
  intro logs
  induction logs with
  | nil =>
    intro count hc hl
    simp at hl
  | cons x rest ih =>
    intro count hc hl
    have hkk : (2 : Int) ^ 31 = 2147483648 := by norm_num
    have hwrap : asI32 ((count : Int) + 1) = (count : Int) + 1 := by
      apply asI32_eq_self <;> omega
    by_cases hck : count = k
    · subst hck
      have hcond : ((count : Int) ≠ -1 ∧ asI32 ((count : Int) + 1) > (count : Int)) := by
        rw [hwrap]
        omega
      simp only [Console.printAllFrom, if_pos hcond]
      simp
    · have hlt : count < k := Nat.lt_of_le_of_ne hc hck
      have hcond : ¬((k : Int) ≠ -1 ∧ asI32 ((count : Int) + 1) > (k : Int)) := by
        rw [hwrap]
        omega
      have hcast : (count : Int) + 1 = ((count + 1 : Nat) : Int) := by push_cast; ring
      have hrec := ih (count + 1) (by omega) (by simp at hl ⊢; omega)
      have htake : k - count = (k - (count + 1)) + 1 := by omega
      simp only [Console.printAllFrom]
      rw [if_neg hcond, hwrap, hcast, hrec, htake, List.take_succ_cons]
      simp

theorem printAllFrom_within (c : Console) (k : Nat) (hk : (k : Int) < 2 ^ 31) :
    ∀ (logs : List ConsoleLog) (count : Nat), count + logs.length ≤ k →
      c.printAllFrom (k : Int) logs (count : Int) =
        (logs.flatMap (fun l => (c.print l).1), logs.flatMap (fun l => (c.print l).2)) := by
  intro logs
  induction logs with
  | nil =>
    intro count h
    simp [Console.printAllFrom]
  | cons x rest ih =>
    intro count h
    simp only [List.length_cons] at h
    have hkk : (2 : Int) ^ 31 = 2147483648 := by norm_num
    have hwrap : asI32 ((count : Int) + 1) = (count : Int) + 1 := by
      apply asI32_eq_self <;> omega
    have hcond : ¬((k : Int) ≠ -1 ∧ asI32 ((count : Int) + 1) > (k : Int)) := by
      rw [hwrap]
      omega
    have hcast : (count : Int) + 1 = ((count + 1 : Nat) : Int) := by push_cast; ring
    simp only [Console.printAllFrom]
    rw [if_neg hcond, hwrap, hcast, ih (count + 1) (by omega)]
    simp

theorem printAllFrom_i32max (c : Console) (logs : List ConsoleLog) :
    ∀ count : Int, c.printAllFrom (2 ^ 31 - 1) logs count =
      (logs.flatMap (fun l => (c.print l).1), logs.flatMap (fun l => (c.print l).2)) := by
  induction logs with
  | nil =>
    intro count
    simp [Console.printAllFrom]
  | cons x rest ih =>
    intro count
    have hcond : ¬(((2 : Int) ^ 31 - 1) ≠ -1 ∧ asI32 (count + 1) > (2 : Int) ^ 31 - 1) := by
      have h1 := asI32_lt (count + 1)
      have hkk : (2 : Int) ^ 31 = 2147483648 := by norm_num
      omega
    simp only [Console.printAllFrom, if_neg hcond, ih, List.flatMap_cons]

theorem write_all_stops_at_first_error (c : Console)
    (fsW : String → String → Except FileManLog Unit) (now : String)
    (lines : List String) (f : LogFile) (e : FileManLog)
    (hf : fsW f.output_path (sinkContent now lines f) = Except.error e) :
    ∀ (pre rest : List LogFile),
      (∀ g ∈ pre, fsW g.output_path (sinkContent now lines g) = Except.ok ()) →
      c.write_all fsW now (pre ++ f :: rest) lines =
        (pre.map (fun g => (g.output_path, sinkContent now lines g)) ++
          [(f.output_path, sinkContent now lines f)], Except.error e) := by
  intro pre
  induction pre with
  | nil =>
    intro rest hpre
    simp [Console.write_all, hf]
  | cons g pre' ih =>
    intro rest hpre
    have hg := hpre g (by simp)
    simp [Console.write_all, hg, ih rest (fun g' hg' => hpre g' (by simp [hg']))]

/-- A sample always-resolving Warning entry used in concrete scenarios. -/
def sampleWarn : ConsoleLog :=
  ⟨ConsoleLogKind.Warning, fun _ => TranslationResult.Success "w1", []⟩

/-- C7: with the suppression flag set, `append_log` leaves the console
unchanged; with it unset, `append_log` appends the entry at the end of the
buffer (so buffer order equals append order). -/
theorem append_log_suppression_and_order (c : Console) (log : ConsoleLog) :
    (c.ignore_logs = true → c.append_log log = c) ∧
    (c.ignore_logs = false →
      c.append_log log = { c with log_list := c.log_list ++ [log] }) := by
  constructor
  · intro h
    simp [Console.append_log, h]
  · intro h
    simp [Console.append_log, h]

/-- Witness for C7 at concrete consoles with the flag set and unset. -/
theorem append_log_suppression_and_order_witness :
    (Console.append_log ⟨"en", [], ConsoleLogLimit.NoLimit, true⟩ sampleWarn =
      ⟨"en", [], ConsoleLogLimit.NoLimit, true⟩) ∧
    (Console.append_log ⟨"en", [], ConsoleLogLimit.NoLimit, false⟩ sampleWarn).log_list =
      [sampleWarn] := by
  refine ⟨(append_log_suppression_and_order _ sampleWarn).1 rfl, ?_⟩
  rw [(append_log_suppression_and_order _ sampleWarn).2 rfl]
  rfl

/-- C8: `pop_log` on an empty buffer is a no-op that changes nothing, and
for a console with suppression unset, `append_log` followed by `pop_log`
restores the console to its exact pre-append state. -/
theorem pop_log_empty_noop_and_inverse_of_append (c : Console) (log : ConsoleLog) :
    (c.log_list = [] → c.pop_log = c) ∧
    (c.ignore_logs = false → (c.append_log log).pop_log = c) := by
  constructor
  · intro h
    simp [Console.pop_log, h]
  · intro h
    obtain ⟨lang, ll, lim, ig⟩ := c
    simp only at h
    subst h
    simp [Console.append_log, Console.pop_log]

/-- Witness for C8 at a concrete empty console. -/
theorem pop_log_empty_noop_and_inverse_of_append_witness :
    ((Console.new "en" ConsoleLogLimit.NoLimit).pop_log =
      Console.new "en" ConsoleLogLimit.NoLimit) ∧
    (((Console.new "en" ConsoleLogLimit.NoLimit).append_log sampleWarn).pop_log =
      Console.new "en" ConsoleLogLimit.NoLimit) :=
  ⟨(pop_log_empty_noop_and_inverse_of_append _ sampleWarn).1 rfl,
   (pop_log_empty_noop_and_inverse_of_append _ sampleWarn).2 rfl⟩

/-- C5: `consume` returns the success value exactly when the result is a
success, and on a domain failure it appends the failure's log entry to the
console and returns the payload-free opaque failure. -/
theorem consume_ok_iff_error_appends {T E : Type} (get_log : E → ConsoleLog)
    (r : Except E T) (c : Console) :
    (∀ v : T, (consume get_log r c).2 = Except.ok v ↔ r = Except.ok v) ∧
    (∀ e : E, r = Except.error e →
      consume get_log r c = (c.append_log (get_log e), Except.error ())) := by
  constructor
  · intro v
    cases r with
    | ok a => simp [consume]
    | error e => simp [consume]
  · intro e he
    subst he
    rfl

/-- Witness for C5: consuming a concrete failed file-utility result. -/
theorem consume_ok_iff_error_appends_witness :
    consume FileManLog.get_log
        (Except.error (FileManLog.FailedToOpenFile "foo.txt") : Except FileManLog Nat)
        (Console.new "en" ConsoleLogLimit.NoLimit) =
      ((Console.new "en" ConsoleLogLimit.NoLimit).append_log
        (FileManLog.FailedToOpenFile "foo.txt").get_log, Except.error ()) :=
  (consume_ok_iff_error_appends FileManLog.get_log _ _).2 _ rfl

/-- The console of the rendering scenario of C9: language "en", no limit,
one appended Error entry with one path description. -/
def c9console : Console :=
  (Console.new "en" ConsoleLogLimit.NoLimit).append_log
    ⟨ConsoleLogKind.Error, InternalTranslator.FailedToOpenFile.translate,
      [(InternalTranslator.PathDescription "foo.txt").translate]⟩

/-- C9: rendering the scenario console produces exactly the colored
terminal lines and the colorless lines of the claim, and the severity
colors and labels are the fixed 31/33/34 and err/warn/note. -/
theorem render_en_error_scenario :
    (c9console.print_all).1 =
      ["\x1b[31m[err]\x1b[m failed to open file", "path:\tfoo.txt", ""] ∧
    (c9console.print_all).2 =
      ["[err] failed to open file", "path:\tfoo.txt", ""] ∧
    ConsoleLogKind.Error.get_log_color_num = 31 ∧
    ConsoleLogKind.Warning.get_log_color_num = 33 ∧
    ConsoleLogKind.Note.get_log_color_num = 34 ∧
    ConsoleLogKind.Error.get_log_kind_name = "err" ∧
    ConsoleLogKind.Warning.get_log_kind_name = "warn" ∧
    ConsoleLogKind.Note.get_log_kind_name = "note" := by
  decide

/-- C10: the `output` transition leaves the console state — language,
buffer, limit policy and suppression flag — exactly unchanged, since
`Console::output` (and the render pass it runs) takes the console by
shared reference. -/
theorem output_preserves_console_state (c : Console)
    (fsWrite : String → String → Except FileManLog Unit) (now : String)
    (files : List LogFile) :
    ((ConsoleOp.output_op fsWrite now files).apply c).1 = c ∧
    ((ConsoleOp.output_op fsWrite now files).apply c).1.lang = c.lang ∧
    ((ConsoleOp.output_op fsWrite now files).apply c).1.log_list = c.log_list ∧
    ((ConsoleOp.output_op fsWrite now files).apply c).1.log_limit = c.log_limit ∧
    ((ConsoleOp.output_op fsWrite now files).apply c).1.ignore_logs = c.ignore_logs :=
  ⟨rfl, rfl, rfl, rfl, rfl⟩

/-- C6: with the NoLimit policy and every buffered entry resolving under
the active language, one render yields exactly the entries' blocks (title
line, description lines, trailing blank line) in append order, in both the
terminal and the colorless sequence; the render is exactly these blocks,
so no truncation note appears in either sequence. -/
theorem print_all_nolimit_all_blocks (c : Console)
    (hlim : c.log_limit = ConsoleLogLimit.NoLimit)
    (hres : ∀ l ∈ c.log_list, l.resolves c.lang) :
    c.print_all = (c.log_list.flatMap (entryBlockTerm c.lang),
      c.log_list.flatMap (entryBlockCons c.lang)) := by
  have h1 : ∀ l ∈ c.log_list, (c.print l).1 = entryBlockTerm c.lang l :=
    fun l hl => by rw [print_resolves c l (hres l hl)]
  have h2 : ∀ l ∈ c.log_list, (c.print l).2 = entryBlockCons c.lang l :=
    fun l hl => by rw [print_resolves c l (hres l hl)]
  simp only [Console.print_all, hlim]
  rw [printAllFrom_noLimit, flatMap_eq_of_eq_on h1, flatMap_eq_of_eq_on h2]

/-- A concrete entry resolving under "en" and "ja", used for the C6
witness scenario. -/
def c6entry : ConsoleLog :=
  ⟨ConsoleLogKind.Error, InternalTranslator.FailedToOpenFile.translate,
    [(InternalTranslator.PathDescription "foo.txt").translate]⟩

/-- A concrete NoLimit console holding one resolving entry. -/
def c6console : Console := ⟨"en", [c6entry], ConsoleLogLimit.NoLimit, false⟩

/-- Witness for C6 at the concrete one-entry NoLimit console. -/
theorem print_all_nolimit_all_blocks_witness :
    c6console.print_all = (c6console.log_list.flatMap (entryBlockTerm c6console.lang),
      c6console.log_list.flatMap (entryBlockCons c6console.lang)) :=
  print_all_nolimit_all_blocks c6console rfl (by
    intro l hl
    simp only [c6console, List.mem_singleton] at hl
    subst hl
    refine ⟨⟨"failed to open file", rfl⟩, ?_⟩
    intro d hd
    simp only [c6entry, List.mem_singleton] at hd
    subst hd
    exact ⟨"path:\tfoo.txt", rfl⟩)

theorem printAllFrom_segment (c : Console) (k : Nat) (hk : k + 1 < 2 ^ 31) :
    ∀ (pre : List ConsoleLog) (x : ConsoleLog) (rest : List ConsoleLog) (count : Nat),
      count + pre.length < k →
      c.printAllFrom (k : Int) (pre ++ x :: rest) (count : Int) =
        (pre.flatMap (fun l => (c.print l).1) ++ (c.print x).1 ++
          (c.printAllFrom (k : Int) rest ((count + pre.length + 1 : Nat) : Int)).1,
         pre.flatMap (fun l => (c.print l).2) ++ (c.print x).2 ++
          (c.printAllFrom (k : Int) rest ((count + pre.length + 1 : Nat) : Int)).2) := by
  intro pre
  induction pre with
  | nil =>
    intro x rest count h
    simp only [List.length_nil, Nat.add_zero] at h
    have hkk : (2 : Int) ^ 31 = 2147483648 := by norm_num
    have hwrap : asI32 ((count : Int) + 1) = (count : Int) + 1 := by
      apply asI32_eq_self <;> omega
    have hcond : ¬((k : Int) ≠ -1 ∧ asI32 ((count : Int) + 1) > (k : Int)) := by
      rw [hwrap]
      omega
    have hcast : (count : Int) + 1 = ((count + 1 : Nat) : Int) := by push_cast; ring
    simp only [List.nil_append, List.length_nil, Nat.add_zero]
    simp only [Console.printAllFrom]
    rw [if_neg hcond, hwrap, hcast]
    simp
  | cons g pre' ih =>
    intro x rest count h
    simp only [List.length_cons] at h
    have hkk : (2 : Int) ^ 31 = 2147483648 := by norm_num
    have hwrap : asI32 ((count : Int) + 1) = (count : Int) + 1 := by
      apply asI32_eq_self <;> omega
    have hcond : ¬((k : Int) ≠ -1 ∧ asI32 ((count : Int) + 1) > (k : Int)) := by
      rw [hwrap]
      omega
    have hcast : (count : Int) + 1 = ((count + 1 : Nat) : Int) := by push_cast; ring
    have hrec := ih x rest (count + 1) (by omega)
    have hc2 : count + 1 + pre'.length + 1 = count + (pre'.length + 1) + 1 := by omega
    simp only [List.cons_append]
    simp only [Console.printAllFrom]
    rw [if_neg hcond, hwrap, hcast, hrec, hc2]
    simp [List.flatMap_cons, List.length_cons, List.append_assoc]

/-- C4 (amended): for every entry, at any buffer position, whose title
resolves to UnknownLanguage under the console's active language code,
`print` yields exactly one fixed "unknown language" line plus the blank
separator on the terminal only and zero colorless lines (not even the
blank); whenever the render reaches that entry — always under NoLimit,
and under Limited(k) (k + 1 in i32 range) whenever fewer than k entries
precede it — the entries before it contribute their usual lines and the
subsequent entries continue to render normally under the same policy. -/
theorem unknown_language_entry_terminal_only (c : Console) (e : ConsoleLog)
    (pre rest : List ConsoleLog)
    (he : e.title c.lang = TranslationResult.UnknownLanguage)
    (hlist : c.log_list = pre ++ e :: rest) :
    c.print e = ([Console.format_unknown_language_log, ""], []) ∧
    (c.log_limit = ConsoleLogLimit.NoLimit →
      (c.print_all).1 = pre.flatMap (fun l => (c.print l).1) ++
        Console.format_unknown_language_log :: "" ::
          rest.flatMap (fun l => (c.print l).1) ∧
      (c.print_all).2 = pre.flatMap (fun l => (c.print l).2) ++
        rest.flatMap (fun l => (c.print l).2)) ∧
    (∀ k : Nat, c.log_limit = ConsoleLogLimit.Limited k → k + 1 < 2 ^ 31 →
      pre.length < k →
      (c.print_all).1 = pre.flatMap (fun l => (c.print l).1) ++
        Console.format_unknown_language_log :: "" ::
          (c.printAllFrom (k : Int) rest ((pre.length + 1 : Nat) : Int)).1 ∧
      (c.print_all).2 = pre.flatMap (fun l => (c.print l).2) ++
        (c.printAllFrom (k : Int) rest ((pre.length + 1 : Nat) : Int)).2) := by
  have hp : c.print e = ([Console.format_unknown_language_log, ""], []) := by
    simp [Console.print, he]
  refine ⟨hp, ?_, ?_⟩
  · intro hlim
    constructor <;>
      simp [Console.print_all, hlim, hlist, printAllFrom_noLimit, hp,
        List.flatMap_append, List.flatMap_cons]
  · intro k hlim hk hpre
    have hcast : asI32 (k : Int) = (k : Int) := by
      have hkk : (2 : Int) ^ 31 = 2147483648 := by norm_num
      apply asI32_eq_self <;> omega
    have hseg := printAllFrom_segment c k hk pre e rest 0 (by omega)
    simp only [Nat.cast_zero, Nat.zero_add, Nat.add_zero] at hseg
    rw [hp] at hseg
    simp only [hlim] at hseg ⊢
    simp only [Console.print_all, hlim, hcast, hlist]
    rw [hseg]
    constructor <;> simp

/-- A concrete entry whose internal-translator title cannot resolve under
the unrecognized language code "xx". -/
def c4entry : ConsoleLog :=
  ⟨ConsoleLogKind.Error, InternalTranslator.FailedToOpenFile.translate, []⟩

/-- A concrete console whose language "xx" is outside the recognized set. -/
def c4cex : Console := ⟨"xx", [c4entry], ConsoleLogLimit.NoLimit, false⟩

/-- Counterexample to C4 as stated: rendering the unknown-language entry
pushes the blank separator to the terminal only; the colorless sequence
stays empty, so no blank line is pushed "to both" sequences. -/
theorem unknown_language_blank_line_not_in_colorless :
    c4cex.log_list.length = 1 ∧
    (c4cex.print_all).1 = [Console.format_unknown_language_log, ""] ∧
    (c4cex.print_all).2 = [] ∧
    "" ∉ (c4cex.print_all).2 := by
  decide

/-- A Limited(2) console whose unknown-language entry sits in the middle
of the buffer, used by the C4 witness. -/
def c4w : Console :=
  ⟨"xx", [sampleWarn, c4entry, sampleWarn], ConsoleLogLimit.Limited 2, false⟩

/-- Witness for C4: the per-entry conclusion at the concrete
unknown-language console, and the Limited-case render conclusion at a
console whose failing entry sits mid-buffer under Limited(2). -/
theorem unknown_language_entry_terminal_only_witness :
    c4cex.print c4entry = ([Console.format_unknown_language_log, ""], []) ∧
    (c4w.print_all).1 = [sampleWarn].flatMap (fun l => (c4w.print l).1) ++
      Console.format_unknown_language_log :: "" ::
        (c4w.printAllFrom (2 : Int) [sampleWarn] (([sampleWarn].length + 1 : Nat) : Int)).1 :=
  ⟨(unknown_language_entry_terminal_only c4cex c4entry [] [] rfl rfl).1,
   ((unknown_language_entry_terminal_only c4w c4entry [sampleWarn] [sampleWarn] rfl rfl).2.2
     2 rfl (by norm_num) (by decide)).1⟩

/-- C2 (amended): for Limited(k) with k + 1 in i32 range and more than k
buffered entries, the render prints the first k entries, then prints the
synthetic truncation entry's rendered lines to the terminal only — the
source passes a fresh `Vec::new()` to `print`, so the sink-visible
colorless sequence never receives the truncation note — and stops
processing the remaining entries. -/
theorem print_all_truncation_terminal_only (c : Console) (k : Nat)
    (hk : k + 1 < 2 ^ 31)
    (hlim : c.log_limit = ConsoleLogLimit.Limited k)
    (hlen : k < c.log_list.length) :
    (c.print_all).1 = (c.log_list.take k).flatMap (fun l => (c.print l).1) ++
        (c.print (logLimitNote c.log_limit)).1 ∧
    (c.print_all).2 = (c.log_list.take k).flatMap (fun l => (c.print l).2) := by
  have hcast : asI32 (k : Int) = (k : Int) := by
    have hkk : (2 : Int) ^ 31 = 2147483648 := by norm_num
    apply asI32_eq_self <;> omega
  have h := printAllFrom_trunc c k hk c.log_list 0 (Nat.zero_le k) (by simpa using hlen)
  simp only [Nat.cast_zero, Nat.sub_zero] at h
  simp only [hlim] at h ⊢
  simp only [Console.print_all, hlim, hcast]
  rw [h]
  exact ⟨rfl, rfl⟩

/-- The two-warning Limited(1) console used for the C2 counterexample and
the C2/C3 witnesses. -/
def c2cex : Console := ⟨"en", [sampleWarn, sampleWarn], ConsoleLogLimit.Limited 1, false⟩

/-- Counterexample to C2 as stated: on a Limited(1) console with two
entries the truncation note's terminal line is printed, but its colorless
line is never pushed to the sink-visible colorless sequence, so the note's
lines are not pushed "to both" sequences. -/
theorem truncation_note_absent_from_colorless_lines :
    c2cex.log_limit = ConsoleLogLimit.Limited 1 ∧
    1 < c2cex.log_list.length ∧
    "\x1b[34m[note]\x1b[m log limit 1 exceeded" ∈ (c2cex.print_all).1 ∧
    "[note] log limit 1 exceeded" ∉ (c2cex.print_all).2 := by
  decide

/-- Witness for C2 at the concrete Limited(1) console. -/
theorem print_all_truncation_terminal_only_witness :
    (c2cex.print_all).2 = (c2cex.log_list.take 1).flatMap (fun l => (c2cex.print l).2) :=
  (print_all_truncation_terminal_only c2cex 1 (by norm_num) rfl (by decide)).2

/-- C3 (amended): for Limited(k) with k + 1 in i32 range and N > k buffered
entries all resolving, one render yields the first k entries' blocks in
insertion order followed by exactly one truncation-note block on the
terminal (the colorless sequence receives only the k entry blocks); the
remaining N − k entries contribute no lines; and the buffer still holds all
N entries: a render of the same buffer under any larger limit Limited(k')
with N ≤ k' (and k' in i32 range) yields all N blocks. -/
theorem print_all_limited_first_k_blocks_then_note (c : Console) (k : Nat)
    (hk : k + 1 < 2 ^ 31)
    (hlim : c.log_limit = ConsoleLogLimit.Limited k)
    (hlen : k < c.log_list.length)
    (hres : ∀ l ∈ c.log_list, l.resolves c.lang) :
    (c.print_all).1 = (c.log_list.take k).flatMap (entryBlockTerm c.lang) ++
        (c.print (logLimitNote c.log_limit)).1 ∧
    (c.print_all).2 = (c.log_list.take k).flatMap (entryBlockCons c.lang) ∧
    ∀ k' : Nat, c.log_list.length ≤ k' → (k' : Int) < 2 ^ 31 →
      ({ c with log_limit := ConsoleLogLimit.Limited k' } : Console).print_all =
        (c.log_list.flatMap (entryBlockTerm c.lang),
         c.log_list.flatMap (entryBlockCons c.lang)) := by
  have hsub : ∀ l ∈ c.log_list.take k, l.resolves c.lang :=
    fun l hl => hres l (List.take_subset k c.log_list hl)
  have ht1 : ∀ l ∈ c.log_list.take k, (c.print l).1 = entryBlockTerm c.lang l :=
    fun l hl => by rw [print_resolves c l (hsub l hl)]
  have ht2 : ∀ l ∈ c.log_list.take k, (c.print l).2 = entryBlockCons c.lang l :=
    fun l hl => by rw [print_resolves c l (hsub l hl)]
  have hcast : asI32 (k : Int) = (k : Int) := by
    have hkk : (2 : Int) ^ 31 = 2147483648 := by norm_num
    apply asI32_eq_self <;> omega
  have h := printAllFrom_trunc c k hk c.log_list 0 (Nat.zero_le k) (by simpa using hlen)
  simp only [Nat.cast_zero, Nat.sub_zero] at h
  simp only [hlim] at h ⊢
  refine ⟨?_, ?_, ?_⟩
  · simp only [Console.print_all, hlim, hcast]
    rw [h, flatMap_eq_of_eq_on ht1]
  · simp only [Console.print_all, hlim, hcast]
    rw [h, flatMap_eq_of_eq_on ht2]
  · intro k' hk1 hk2
    have hcast' : asI32 (k' : Int) = (k' : Int) := by
      have hkk : (2 : Int) ^ 31 = 2147483648 := by norm_num
      apply asI32_eq_self <;> omega
    have hw := printAllFrom_within
      ({ c with log_limit := ConsoleLogLimit.Limited k' } : Console) k' hk2
      c.log_list 0 (by simpa using hk1)
    simp only [Nat.cast_zero] at hw
    have hw1 : ∀ l ∈ c.log_list,
        (({ c with log_limit := ConsoleLogLimit.Limited k' } : Console).print l).1 =
          entryBlockTerm c.lang l :=
      fun l hl => by
        rw [print_resolves ({ c with log_limit := ConsoleLogLimit.Limited k' } : Console)
          l (hres l hl)]
    have hw2 : ∀ l ∈ c.log_list,
        (({ c with log_limit := ConsoleLogLimit.Limited k' } : Console).print l).2 =
          entryBlockCons c.lang l :=
      fun l hl => by
        rw [print_resolves ({ c with log_limit := ConsoleLogLimit.Limited k' } : Console)
          l (hres l hl)]
    simp only [Console.print_all, hcast']
    rw [hw, flatMap_eq_of_eq_on hw1, flatMap_eq_of_eq_on hw2]


/-- The i32-boundary console for the C3 counterexample: limit
Limited(2^31 − 1) and 2^31 buffered always-resolving entries. -/
def c3cex : Console :=
  ⟨"en", List.replicate (2 ^ 31) sampleWarn, ConsoleLogLimit.Limited (2 ^ 31 - 1), false⟩

/-- Counterexample to C3 as stated: the source casts the limit and the
loop counter to `i32`, so for k = 2^31 − 1 (i32::MAX) the comparison
`log_count + 1 > limit` can never hold and the truncation branch never
fires; with N = 2^31 > k buffered entries the render contains no
truncation-note line at all, instead of the claimed first-k-blocks
followed by one truncation-note block. -/
theorem limited_i32_max_never_truncates :
    c3cex.log_limit = ConsoleLogLimit.Limited (2 ^ 31 - 1) ∧
    2 ^ 31 - 1 < c3cex.log_list.length ∧
    (∀ l ∈ c3cex.log_list, l.resolves c3cex.lang) ∧
    "\x1b[34m[note]\x1b[m log limit 2147483647 exceeded" ∉ (c3cex.print_all).1 := by
  refine ⟨rfl, ?_, ?_, ?_⟩
  · have h : c3cex.log_list.length = 2 ^ 31 := by
      rw [show c3cex.log_list = List.replicate (2 ^ 31) sampleWarn from rfl,
        List.length_replicate]
    rw [h]
    norm_num
  · intro l hl
    have hl' : l ∈ List.replicate (2 ^ 31) sampleWarn := hl
    have hls := List.eq_of_mem_replicate hl'
    subst hls
    refine ⟨⟨"w1", rfl⟩, ?_⟩
    intro d hd
    simp [sampleWarn] at hd
  · have hcast : asI32 ((2 ^ 31 - 1 : Nat) : Int) = (2 : Int) ^ 31 - 1 := by
      have h1 : ((2 ^ 31 - 1 : Nat) : Int) = (2 : Int) ^ 31 - 1 := by norm_num
      rw [h1]
      apply asI32_eq_self <;> norm_num
    have e1 : (c3cex.print_all).1 =
        (List.replicate (2 ^ 31) sampleWarn).flatMap (fun l => (c3cex.print l).1) := by
      simp only [Console.print_all, c3cex, hcast]
      rw [printAllFrom_i32max]
    rw [e1]
    intro hmem
    rw [List.mem_flatMap] at hmem
    obtain ⟨a, ha, hx⟩ := hmem
    have has := List.eq_of_mem_replicate ha
    subst has
    have hp : (c3cex.print sampleWarn).1 = ["\x1b[33m[warn]\x1b[m w1", ""] := rfl
    rw [hp] at hx
    simp only [List.mem_cons, List.mem_singleton, List.not_mem_nil, or_false] at hx
    exact absurd hx (by decide)

/-- Witness for C3 at the concrete Limited(1) console with two resolving
entries. -/
theorem print_all_limited_first_k_blocks_then_note_witness :
    (c2cex.print_all).1 = (c2cex.log_list.take 1).flatMap (entryBlockTerm c2cex.lang) ++
      (c2cex.print (logLimitNote c2cex.log_limit)).1 :=
  (print_all_limited_first_k_blocks_then_note c2cex 1 (by norm_num) rfl (by decide)
    (by
      intro l hl
      simp only [c2cex, List.mem_cons, List.not_mem_nil, or_false, or_self] at hl
      subst hl
      refine ⟨⟨"w1", rfl⟩, ?_⟩
      intro d hd
      simp [sampleWarn] at hd)).1

/-- C1 (amended): when the sinks before `f` all write successfully and
`f`'s write fails, `output` attempts exactly the sinks up to and including
`f` — the sinks after the first failure are never written, because the
failure propagates out of the dispatch loop — and prints exactly one fixed
"log file writing failure" line after the rendered lines, returning
normally with no failure value. -/
theorem output_stops_at_first_failed_sink (c : Console)
    (fsW : String → String → Except FileManLog Unit) (now : String)
    (pre rest : List LogFile) (f : LogFile) (e : FileManLog)
    (hpre : ∀ g ∈ pre, fsW g.output_path (sinkContent now (c.print_all).2 g) = Except.ok ())
    (hf : fsW f.output_path (sinkContent now (c.print_all).2 f) = Except.error e) :
    (c.output fsW now (pre ++ f :: rest)).1 =
      (c.print_all).1 ++ [Console.format_log_file_writing_failure_log] ∧
    (c.output fsW now (pre ++ f :: rest)).2 =
      pre.map (fun g => (g.output_path, sinkContent now (c.print_all).2 g)) ++
        [(f.output_path, sinkContent now (c.print_all).2 f)] := by
  have hw := write_all_stops_at_first_error c fsW now (c.print_all).2 f e hf pre rest hpre
  constructor <;> simp [Console.output, hw]

/-- The empty console used in the C1 scenario. -/
def c1cexConsole : Console := Console.new "en" ConsoleLogLimit.NoLimit

/-- First sink of the C1 scenario. -/
def c1sinkA : LogFile := ⟨LogFileKind.TextLines ["x"], "a"⟩

/-- Second sink of the C1 scenario. -/
def c1sinkB : LogFile := ⟨LogFileKind.TextLines ["y"], "b"⟩

/-- A filesystem on which every write fails. -/
def c1fsFail : String → String → Except FileManLog Unit :=
  fun path _ => Except.error (FileManLog.FailedToOpenFile path)

/-- Counterexample to C1 as stated: with two sinks that would both fail,
`output` prints exactly one failure line (not one per failing sink), and
the second sink — still in the list after the failing first sink — is
never written: the attempted-write trace holds only the first path. -/
theorem output_second_sink_unwritten_on_first_failure :
    c1fsFail c1sinkB.output_path (sinkContent "t" (c1cexConsole.print_all).2 c1sinkB) =
      Except.error (FileManLog.FailedToOpenFile "b") ∧
    (c1cexConsole.output c1fsFail "t" [c1sinkA, c1sinkB]).1 =
      [Console.format_log_file_writing_failure_log] ∧
    (c1cexConsole.output c1fsFail "t" [c1sinkA, c1sinkB]).2.map Prod.fst = ["a"] := by
  exact ⟨rfl, rfl, rfl⟩

/-- Witness for C1: the first of two sinks fails, so only it is attempted
and one failure line is printed. -/
theorem output_stops_at_first_failed_sink_witness :
    (c1cexConsole.output c1fsFail "t" ([] ++ c1sinkA :: [c1sinkB])).1 =
      (c1cexConsole.print_all).1 ++ [Console.format_log_file_writing_failure_log] :=
  (output_stops_at_first_failed_sink c1cexConsole c1fsFail "t" [] [c1sinkB] c1sinkA
    (FileManLog.FailedToOpenFile "a")
    (by intro g hg; simp at hg) rfl).1
